import Mathlib

/-!
# lotus-terminate: the `terminateAll balance` command

A shallow embedding of `all_terminate.go`.

* `big.Int` / `abi.TokenAmount` values are `Int` (arbitrary precision, signed).
* `uint64` values (`abi.SectorNumber`, `abi.SectorSize`) are `Nat`; `abi.ChainEpoch`
  is an `int64`, embedded as `Int` with explicit wrap-around on subtraction.
* Functions of the external actor library (`miner7.QAPowerForSector`,
  `miner7.PledgePenaltyForTermination`), of the address library and of the node API
  are parameters.
* Fallible code returns `Except Err`; the calls made on the node API and the rows
  written to the table writer are recorded in an explicit `World`.
-/

namespace LotusTerminate

/-! ## Data model -/

/-- The `smoothing7.FilterEstimate` pair. -/
structure FilterEstimate where
  PositionEstimate : Int
  VelocityEstimate : Int
deriving DecidableEq, Repr

/-- The fields of lotus `miner.SectorOnChainInfo` that `calculateBalance` reads. -/
structure SectorOnChainInfo where
  SectorNumber : Nat
  SealProof : Int
  SealedCID : String
  DealIDs : List Nat
  Activation : Int
  Expiration : Int
  DealWeight : Int
  VerifiedDealWeight : Int
  InitialPledge : Int
  ExpectedDayReward : Int
  ExpectedStoragePledge : Int
deriving DecidableEq, Repr

/-- The `miner7.SectorOnChainInfo` record rebuilt for every sector in the loop. -/
structure SectorOnChainInfo7 where
  SectorNumber : Nat
  SealProof : Int
  SealedCID : String
  DealIDs : List Nat
  Activation : Int
  Expiration : Int
  DealWeight : Int
  VerifiedDealWeight : Int
  InitialPledge : Int
  ExpectedDayReward : Int
  ExpectedStoragePledge : Int
  ReplacedSectorAge : Int
  ReplacedDayReward : Int
deriving DecidableEq, Repr

/-- The `miner.LockedFunds` ledger returned by `mas.LockedFunds()`. -/
structure LockedFunds where
  VestingFunds : Int
  InitialPledgeRequirement : Int
  PreCommitDeposits : Int
deriving DecidableEq, Repr

/-- The two functions of the external actor library (`specs-actors/v7`) used by the
loop; they are not code of this repository and are taken as parameters. -/
structure Actors7 where
  /-- The function `miner7.QAPowerForSector(size, sector)`. -/
  QAPowerForSector : Nat → SectorOnChainInfo7 → Int
  /-- The function `miner7.PledgePenaltyForTermination(dayReward, sectorAge, twentyDayRewardAtActivation,
  networkQAPowerEstimate, qaSectorPower, rewardEstimate, replacedDayReward, replacedSectorAge)` -/
  PledgePenaltyForTermination :
    Int → Int → Int → FilterEstimate → Int → FilterEstimate → Int → Int → Int

/-! ## Per-sector accumulator (lines 296-327) -/

/-- Subtraction of two `abi.ChainEpoch` (`int64`) values, with two's-complement wrap. -/
def epochSub (a b : Int) : Int :=
  (a - b + 2 ^ 63) % 2 ^ 64 - 2 ^ 63

/-- The `miner_info := &miner7.SectorOnChainInfo{...}` literal of lines 300-315. -/
def toMiner7 (info : SectorOnChainInfo) : SectorOnChainInfo7 where
  SectorNumber := info.SectorNumber
  SealProof := info.SealProof
  SealedCID := info.SealedCID
  DealIDs := info.DealIDs
  Activation := info.Activation
  Expiration := info.Expiration
  DealWeight := info.DealWeight
  VerifiedDealWeight := info.VerifiedDealWeight
  InitialPledge := info.InitialPledge
  ExpectedDayReward := info.ExpectedDayReward
  ExpectedStoragePledge := info.ExpectedStoragePledge
  ReplacedSectorAge := 0
  ReplacedDayReward := 0

/-- The `fee` computed for one sector (lines 319-321). -/
def sectorFee (lib : Actors7) (sectorSize : Nat) (height : Int)
    (pwrTotal fe : FilterEstimate) (info : SectorOnChainInfo) : Int :=
  let miner_info := toMiner7 info
  let sectorPower := lib.QAPowerForSector sectorSize miner_info
  lib.PledgePenaltyForTermination miner_info.ExpectedDayReward
    (epochSub height miner_info.Activation) miner_info.ExpectedStoragePledge
    pwrTotal sectorPower fe miner_info.ReplacedDayReward miner_info.ReplacedSectorAge

/-- One iteration of the loop body on the pair `(penalty, ipDelta)`. -/
def accumulateStep (lib : Actors7) (sectorSize : Nat) (height : Int)
    (pwrTotal fe : FilterEstimate) (acc : Int × Int) (info : SectorOnChainInfo) : Int × Int :=
  let ipDelta := acc.2 + (toMiner7 info).InitialPledge
  let fee := sectorFee lib sectorSize height pwrTotal fe info
  let penalty := acc.1 + fee
  (penalty, ipDelta)

/-- The loop `for _, info := range sinfos` started from `penalty = 0`, `ipDelta = 0`;
the result is `(penalty, ipDelta)`. -/
def accumulate (lib : Actors7) (sectorSize : Nat) (height : Int)
    (pwrTotal fe : FilterEstimate) (sinfos : List SectorOnChainInfo) : Int × Int :=
  sinfos.foldl (accumulateStep lib sectorSize height pwrTotal fe) (0, 0)

/-! ## Balance reconciliation (lines 353-367) -/

/-- The four projected quantities printed in the row, with the two totals. -/
structure Projection where
  ipAfter : Int
  depositAfter : Int
  vestingAfter : Int
  avaAfter : Int
  realpenalty : Int
  ipDelta : Int
deriving DecidableEq, Repr

/-- The "after action" block of `calculateBalance`. -/
def reconcile (lockedFunds : LockedFunds) (availBalance penalty ipDelta : Int) : Projection :=
  let realpenalty := penalty
  let ipAfter := lockedFunds.InitialPledgeRequirement - ipDelta
  let depositAfter := lockedFunds.PreCommitDeposits
  if lockedFunds.VestingFunds ≥ penalty then
    { ipAfter := ipAfter
      depositAfter := depositAfter
      vestingAfter := lockedFunds.VestingFunds - penalty
      avaAfter := availBalance + ipDelta
      realpenalty := realpenalty
      ipDelta := ipDelta }
  else
    let delta := penalty - lockedFunds.VestingFunds
    { ipAfter := ipAfter
      depositAfter := depositAfter
      vestingAfter := 0
      avaAfter := availBalance + ipDelta - delta
      realpenalty := realpenalty
      ipDelta := ipDelta }

/-! ## Errors -/

/-- The error values the command can return, one constructor per source site;
`external` carries an error handed back by a collaborator (home-directory expansion,
node API, state store, output stream). -/
inductive Err where
  /-- The error "miner-path and actor must not emoty at the same time" (line 92). -/
  | neitherSupplied
  /-- The error "actors must provide" (line 124). -/
  | actorsMustProvide
  /-- The error "parsing address %s: %w" (lines 105, 115). -/
  | parsingAddress (s : String) (cause : String)
  /-- The error "actor address must provide" (line 118). -/
  | actorAddressMustProvide
  /-- The error "sectors length is empty" (line 150). -/
  | sectorsLengthEmpty
  /-- The error of `strconv.ParseUint` on the given text (lines 137, 156). -/
  | parseUint (s : String)
  /-- The error "miner no sectors to lookup" (line 210). -/
  | noSectors
  /-- The `xerrors.Errorf` of lines 230-286, by line number. -/
  | stateShape (line : Nat)
  /-- A run-time panic (unchecked type assertion, `big.MustFromString`). -/
  | panic
  /-- The wrapping `xerrors.Errorf("...: %w", err)` of lines 344 and 348, by line number. -/
  | wrap (line : Nat) (cause : Err)
  /-- An error handed back by a collaborator. -/
  | external (msg : String)
deriving DecidableEq, Repr

deriving instance DecidableEq for Except

/-- The errors raised by the flag validation itself (missing input flags, no target). -/
def Err.isConfig : Err → Bool
  | .neitherSupplied => true
  | .actorsMustProvide => true
  | _ => false

/-! ## Files and flags (lines 32-55, 87-160) -/

/-- The `ReadString` loop of `readline` over the bytes still unread: `cur` holds the
bytes read since the last delimiter. A line is appended only when its `'\n'` was read;
when the input ends first, `ReadString` reports `io.EOF` and the loop breaks, dropping
`cur`. `strings.Replace(line, "\n", "", -1)` removes every newline of the line. -/
def readLines : List Char → List Char → List String
  | _, [] => []
  | cur, c :: rest =>
    if c = '\n' then
      String.mk ((cur ++ [c]).filter (fun x => x ≠ '\n')) :: readLines [] rest
    else
      readLines (cur ++ [c]) rest

/-- The value of a non-empty run of decimal digits. -/
def parseDigits (ds : List Char) : Option Nat :=
  if ds = [] then none
  else if ds.all Char.isDigit then some (ds.foldl (fun n c => 10 * n + (c.toNat - 48)) 0)
  else none

/-- The function `strconv.ParseUint(s, 10, 64)`: a non-empty run of decimal digits below `2^64`. -/
def parseUint (s : String) : Option Nat :=
  match parseDigits s.data with
  | none => none
  | some n => if n < 2 ^ 64 then some n else none

/-- The function `strings.Split(s, ",")` over the characters still unread. -/
def splitComma : List Char → List Char → List String
  | cur, [] => [String.mk cur]
  | cur, c :: rest =>
    if c = ',' then String.mk cur :: splitComma [] rest
    else splitComma (cur ++ [c]) rest

/-- The four string flags of the `balance` command; an unset flag reads as `""`. -/
structure Flags where
  actor : String
  minersPath : String
  sectors : String
  sectorsPath : String
deriving DecidableEq, Repr

/-- What the command reads from outside the node: the file system, home-directory
expansion and the address codec. -/
structure Env (Addr : Type) where
  /-- The call `os.Open` followed by reading the file: `none` when the file cannot be opened. -/
  openFile : String → Option String
  /-- The function `homedir.Expand`. -/
  expand : String → Except Err String
  /-- The function `address.NewFromString`; the error carries the cause text. -/
  newFromString : String → Except String Addr

/-- The function `readline(path)`: a file that cannot be opened gives no lines. -/
def readline {Addr : Type} (env : Env Addr) (path : String) : List String :=
  match env.openFile path with
  | none => []
  | some content => readLines [] content.data

/-- The loop of lines 102-108: parse every line, stop at the first failure. -/
def parseAddrs {Addr : Type} (env : Env Addr) : List String → Except Err (List Addr)
  | [] => .ok []
  | ac :: acts =>
    match env.newFromString ac with
    | .error cause => .error (.parsingAddress ac cause)
    | .ok ma =>
      match parseAddrs env acts with
      | .error e => .error e
      | .ok rest => .ok (ma :: rest)

/-- Lines 95-121: the `actors` slice before the emptiness check. -/
def collectActors {Addr : Type} (env : Env Addr) (flags : Flags) : Except Err (List Addr) :=
  if flags.minersPath ≠ "" then
    match env.expand flags.minersPath with
    | .error e => .error e
    | .ok path => parseAddrs env (readline env path)
  else if flags.actor ≠ "" then
    if flags.actor ≠ "" then
      match env.newFromString flags.actor with
      | .error cause => .error (.parsingAddress flags.actor cause)
      | .ok maddr => .ok [maddr]
    else .error .actorAddressMustProvide
  else .ok []

/-- Lines 91-125: address resolution of the action. -/
def resolveActors {Addr : Type} (env : Env Addr) (flags : Flags) : Except Err (List Addr) :=
  if flags.minersPath = "" ∧ flags.actor = "" then .error .neitherSupplied
  else
    match collectActors env flags with
    | .error e => .error e
    | .ok actors => if actors.length = 0 then .error .actorsMustProvide else .ok actors

/-- The loops of lines 134-140 and 153-159: parse every text, stop at the first failure. -/
def parseSectorNumbers : List String → Except Err (List Nat)
  | [] => .ok []
  | ss :: rest =>
    match parseUint ss with
    | none => .error (.parseUint ss)
    | some ssi =>
      match parseSectorNumbers rest with
      | .error e => .error e
      | .ok more => .ok (ssi :: more)

/-- Lines 127-160: sector resolution of the action. With `--sectors-path` set, the
path that is expanded and read is the value of the `miners-path` flag (line 128). -/
def resolveSectors {Addr : Type} (env : Env Addr) (flags : Flags) : Except Err (List Nat) :=
  if flags.sectorsPath ≠ "" then
    match env.expand flags.minersPath with
    | .error e => .error e
    | .ok path => parseSectorNumbers (readline env path)
  else if flags.sectors ≠ "" then
    let sectorStrs :=
      if flags.sectors.data.contains ',' then splitComma [] flags.sectors.data
      else [] ++ [flags.sectors]
    if sectorStrs.length = 0 then .error .sectorsLengthEmpty
    else parseSectorNumbers sectorStrs
  else .ok []

/-! ## The node API and the world (lines 162-181, 183-216, 329-349) -/

/-- A tipset key is the list of its block identifiers. -/
abbrev TipSetKey := List String

/-- The constant `types.EmptyTSK`. -/
def EmptyTSK : TipSetKey := []

/-- The tipset returned by `ChainHead`, with what `Height()` and `Key()` return. -/
structure TipSet where
  Height : Int
  Key : TipSetKey
deriving DecidableEq, Repr

/-- The part of `StateMinerInfo`'s answer that is read. -/
structure MinerInfo where
  SectorSize : Nat
deriving DecidableEq, Repr

/-- A generically decoded state value (`interface{}`): a string, a
`map[string]interface{}`, or anything else. -/
inductive JVal where
  | str (s : String)
  | obj (fields : List (String × JVal))
  | other

/-- The actor record returned by `StateGetActor`. -/
structure Actor where
  Balance : Int
  Head : String
deriving DecidableEq, Repr

/-- The miner state `mas` returned by `miner.Load`, with its two methods that are used. -/
structure MinerState where
  LockedFunds : Except Err LockedFunds
  AvailableBalance : Int → Except Err Int

/-- A `bitfield.BitField` as the ascending list of its set bits; this is `Set`. -/
def bitfieldSet : List Nat → Nat → List Nat
  | [], x => [x]
  | b :: bs, x =>
    if x < b then x :: b :: bs
    else if x = b then b :: bs
    else b :: bitfieldSet bs x

/-- The answers of the full node (`v0api.FullNode`) and of the state store reached
through it, for the methods that `calculateBalance` calls. -/
structure FullNode (Addr : Type) where
  StateMinerInfo : Addr → TipSetKey → Except Err MinerInfo
  StateMinerSectors : Addr → List Nat → TipSetKey → Except Err (List SectorOnChainInfo)
  StateMinerActiveSectors : Addr → TipSetKey → Except Err (List SectorOnChainInfo)
  ChainHead : Except Err TipSet
  StateReadState : Addr → TipSetKey → Except Err JVal
  StateGetActor : Addr → TipSetKey → Except Err Actor
  /-- The call `miner.Load` over the store backed by the node. -/
  MinerLoad : Actor → Except Err MinerState

/-- One call on the node, with the tipset key it was made at. -/
inductive Call (Addr : Type) where
  | getFullNodeAPI
  | stateMinerInfo (maddr : Addr) (tsk : TipSetKey)
  | stateMinerSectors (maddr : Addr) (filter : List Nat) (tsk : TipSetKey)
  | stateMinerActiveSectors (maddr : Addr) (tsk : TipSetKey)
  | chainHead
  | stateReadState (addr : Addr) (tsk : TipSetKey)
  | stateGetActor (maddr : Addr) (tsk : TipSetKey)
  | minerLoad (act : Actor)
deriving DecidableEq, Repr

/-- A line handed to the table writer: the header, or the row of one actor
(height, miner, sector size, sector count and the projected amounts). -/
inductive Row (Addr : Type) where
  | header
  | balance (height : Int) (maddr : Addr) (ssize : Nat) (sectornum : Nat) (p : Projection)
deriving DecidableEq, Repr

/-- What a run leaves behind: the node calls in order, the lines buffered in the table
writer, and the lines flushed to standard output. -/
structure World (Addr : Type) where
  calls : List (Call Addr)
  tw : List (Row Addr)
  stdout : List (Row Addr)
deriving DecidableEq, Repr

/-- The world before anything happened. -/
def World.empty (Addr : Type) : World Addr := { calls := [], tw := [], stdout := [] }

/-- Record one call on the node. -/
def World.call {Addr : Type} (w : World Addr) (c : Call Addr) : World Addr :=
  { w with calls := w.calls ++ [c] }

/-- Record one line written to the table writer. -/
def World.write {Addr : Type} (w : World Addr) (r : Row Addr) : World Addr :=
  { w with tw := w.tw ++ [r] }

/-- Record a `tw.Flush()` that succeeded: the buffered lines go to standard output. -/
def World.flush {Addr : Type} (w : World Addr) : World Addr :=
  { w with tw := [], stdout := w.stdout ++ w.tw }

/-- What the action obtains from its host: the node connection of
`lcli.GetFullNodeAPI` and the result of writing to standard output in `tw.Flush()`. -/
structure Runtime (Addr : Type) where
  getFullNodeAPI : Except Err (FullNode Addr)
  flushResult : List (Row Addr) → Except Err Unit

/-! ## Decoding the smoothed estimates (lines 228-252, 264-292) -/

/-- The function `big.FromString`: an optional sign followed by decimal digits. -/
def bigFromString (s : String) : Option Int :=
  match s.data with
  | [] => none
  | c :: ds =>
    if c = '-' then (parseDigits ds).map (fun n => -(n : Int))
    else if c = '+' then (parseDigits ds).map (fun n => (n : Int))
    else (parseDigits (c :: ds)).map (fun n => (n : Int))

/-- The expression `big.MustFromString(x.(string))`: both the type assertion and the
parse panic on failure. -/
def mustFromString : JVal → Except Err Int
  | .str s =>
    match bigFromString s with
    | some n => .ok n
    | none => .error .panic
  | _ => .error .panic

/-- The `smoothing7.FilterEstimate{...}` literal built from the two looked-up values. -/
def mkFilterEstimate (p v : JVal) : Except Err FilterEstimate :=
  match mustFromString p with
  | .error e => .error e
  | .ok pe =>
    match mustFromString v with
    | .error e => .error e
    | .ok ve => .ok { PositionEstimate := pe, VelocityEstimate := ve }

/-- Lines 228-252: the reward estimate `fe` out of the reward actor's state. The
assertion of `ThisEpochRewardSmoothed` to a map is unchecked. -/
def decodeReward : JVal → Except Err FilterEstimate
  | .obj rewardState =>
    match rewardState.lookup "ThisEpochRewardSmoothed" with
    | none => .error (.stateShape 234)
    | some (.obj rewardStats) =>
      match rewardStats.lookup "PositionEstimate" with
      | none => .error (.stateShape 241)
      | some p =>
        match rewardStats.lookup "VelocityEstimate" with
        | none => .error (.stateShape 246)
        | some v => mkFilterEstimate p v
    | some _ => .error .panic
  | _ => .error (.stateShape 230)

/-- Lines 264-292: the power estimate `pwrTotal` out of the power actor's state. -/
def decodePower : JVal → Except Err FilterEstimate
  | .obj powerState =>
    match powerState.lookup "ThisEpochQAPowerSmoothed" with
    | none => .error (.stateShape 271)
    | some (.obj epochPowerMap) =>
      match epochPowerMap.lookup "PositionEstimate" with
      | none => .error (.stateShape 281)
      | some p1 =>
        match epochPowerMap.lookup "VelocityEstimate" with
        | none => .error (.stateShape 286)
        | some v1 => mkFilterEstimate p1 v1
    | some _ => .error (.stateShape 276)
  | _ => .error (.stateShape 266)

/-! ## calculateBalance (lines 183-385) and the action (lines 87-180) -/

/-- Lines 189-207: the sector-info lookup, the requested subset when `sectors` is
non-empty and all active sectors otherwise; both are made at `types.EmptyTSK`. -/
def fetchSectors {Addr : Type} (nodeAPI : FullNode Addr) (maddr : Addr) (sectors : List Nat)
    (w : World Addr) : World Addr × Except Err (List SectorOnChainInfo) :=
  if sectors.length > 0 then
    let allsectors := sectors.foldl bitfieldSet []
    let w := w.call (.stateMinerSectors maddr allsectors EmptyTSK)
    match nodeAPI.StateMinerSectors maddr allsectors EmptyTSK with
    | .error e => (w, .error e)
    | .ok sins => (w, .ok ([] ++ sins))
  else
    let w := w.call (.stateMinerActiveSectors maddr EmptyTSK)
    match nodeAPI.StateMinerActiveSectors maddr EmptyTSK with
    | .error e => (w, .error e)
    | .ok sins => (w, .ok ([] ++ sins))

/-- Lines 329-385: actor record, ledger load, reconciliation, and the row. When the
write of `tw.Flush()` fails, its error is returned and nothing reaches standard output. -/
def finishBalance {Addr : Type} (rt : Runtime Addr) (nodeAPI : FullNode Addr) (maddr : Addr)
    (mi : MinerInfo) (sinfos : List SectorOnChainInfo) (head : TipSet)
    (penalty ipDelta : Int) (w : World Addr) : World Addr × Except Err Unit :=
  let w := w.call (.stateGetActor maddr head.Key)
  match nodeAPI.StateGetActor maddr head.Key with
  | .error e => (w, .error e)
  | .ok mact =>
    let w := w.call (.minerLoad mact)
    match nodeAPI.MinerLoad mact with
    | .error e => (w, .error e)
    | .ok mas =>
      match mas.LockedFunds with
      | .error e => (w, .error (.wrap 344 e))
      | .ok lockedFunds =>
        match mas.AvailableBalance mact.Balance with
        | .error e => (w, .error (.wrap 348 e))
        | .ok availBalance =>
          let p := reconcile lockedFunds availBalance penalty ipDelta
          let w := w.write (.balance head.Height maddr mi.SectorSize sinfos.length p)
          match rt.flushResult w.tw with
          | .error e => (w, .error e)
          | .ok _ => (w.flush, .ok ())

/-- Lines 213-327: chain head, reward and power estimates, and the loop. -/
def headAndEstimates {Addr : Type} (env : Env Addr) (rt : Runtime Addr) (lib : Actors7)
    (nodeAPI : FullNode Addr) (maddr : Addr) (mi : MinerInfo)
    (sinfos : List SectorOnChainInfo) (w : World Addr) : World Addr × Except Err Unit :=
  let w := w.call .chainHead
  match nodeAPI.ChainHead with
  | .error e => (w, .error e)
  | .ok head =>
    match env.newFromString "f02" with
    | .error cause => (w, .error (.external cause))
    | .ok rewardAddr =>
      let w := w.call (.stateReadState rewardAddr head.Key)
      match nodeAPI.StateReadState rewardAddr head.Key with
      | .error e => (w, .error e)
      | .ok rSt =>
        match decodeReward rSt with
        | .error e => (w, .error e)
        | .ok fe =>
          match env.newFromString "f04" with
          | .error cause => (w, .error (.external cause))
          | .ok powerAddr =>
            let w := w.call (.stateReadState powerAddr head.Key)
            match nodeAPI.StateReadState powerAddr head.Key with
            | .error e => (w, .error e)
            | .ok pSt =>
              match decodePower pSt with
              | .error e => (w, .error e)
              | .ok pwrTotal =>
                let acc := accumulate lib mi.SectorSize head.Height pwrTotal fe sinfos
                finishBalance rt nodeAPI maddr mi sinfos head acc.1 acc.2 w

/-- The function `calculateBalance` for one actor, from a given world. -/
def calculateBalance {Addr : Type} (env : Env Addr) (rt : Runtime Addr) (lib : Actors7)
    (nodeAPI : FullNode Addr) (maddr : Addr) (sectors : List Nat) (w : World Addr) :
    World Addr × Except Err Unit :=
  let w := w.call (.stateMinerInfo maddr EmptyTSK)
  match nodeAPI.StateMinerInfo maddr EmptyTSK with
  | .error e => (w, .error e)
  | .ok mi =>
    match fetchSectors nodeAPI maddr sectors w with
    | (w, .error e) => (w, .error e)
    | (w, .ok sinfos) =>
      if sinfos.length = 0 then (w, .error .noSectors)
      else headAndEstimates env rt lib nodeAPI maddr mi sinfos w

/-- The loop of lines 173-178: one actor after the other, stopping at the first error. -/
def runActors {Addr : Type} (env : Env Addr) (rt : Runtime Addr) (lib : Actors7)
    (nodeAPI : FullNode Addr) (sectors : List Nat) :
    List Addr → World Addr → World Addr × Except Err Unit
  | [], w => (w, .ok ())
  | actor :: rest, w =>
    match calculateBalance env rt lib nodeAPI actor sectors w with
    | (w, .error e) => (w, .error e)
    | (w, .ok _) => runActors env rt lib nodeAPI sectors rest w

/-- The `Action` of `terminateBalanceCmd`. -/
def action {Addr : Type} (env : Env Addr) (rt : Runtime Addr) (lib : Actors7)
    (flags : Flags) (w : World Addr) : World Addr × Except Err Unit :=
  match resolveActors env flags with
  | .error e => (w, .error e)
  | .ok actors =>
    match resolveSectors env flags with
    | .error e => (w, .error e)
    | .ok sectors =>
      let w := w.write .header
      let w := w.call .getFullNodeAPI
      match rt.getFullNodeAPI with
      | .error e => (w, .error e)
      | .ok nodeAPI => runActors env rt lib nodeAPI sectors actors w

/-! ## Reconciliation: theorems -/

/-- The ledger of the two scenarios: pledge 1000, deposit 50, vesting 30. -/
def scenarioLedger : LockedFunds :=
  { VestingFunds := 30, InitialPledgeRequirement := 1000, PreCommitDeposits := 50 }

/-- C1: for every ledger, available balance, pledge delta and non-negative total
penalty that does not exceed the ledger's vesting funds, the projected vesting is
`vestingFunds - penalty`, the projected available balance is `available + pledgeDelta`,
and the projected vesting is not negative. -/
theorem reconcile_penalty_covered (lockedFunds : LockedFunds)
    (availBalance penalty ipDelta : Int)
    (_hpos : 0 ≤ penalty) (hcov : penalty ≤ lockedFunds.VestingFunds) :
    (reconcile lockedFunds availBalance penalty ipDelta).vestingAfter
        = lockedFunds.VestingFunds - penalty ∧
    (reconcile lockedFunds availBalance penalty ipDelta).avaAfter
        = availBalance + ipDelta ∧
    0 ≤ (reconcile lockedFunds availBalance penalty ipDelta).vestingAfter := by
  have hge : lockedFunds.VestingFunds ≥ penalty := hcov
  simp only [reconcile, if_pos hge]
  refine ⟨trivial, trivial, ?_⟩
  omega

/-- The scenario of C1: ledger {1000, 50, 30}, available 20, penalty 10, pledge delta 5
gives vesting 20 and available 25 (and pledge 995, deposit 50). -/
theorem reconcile_penalty_covered_witness :
    ((reconcile scenarioLedger 20 10 5).vestingAfter = scenarioLedger.VestingFunds - 10 ∧
      (reconcile scenarioLedger 20 10 5).avaAfter = 20 + 5 ∧
      0 ≤ (reconcile scenarioLedger 20 10 5).vestingAfter) ∧
    reconcile scenarioLedger 20 10 5 =
      { ipAfter := 995, depositAfter := 50, vestingAfter := 20, avaAfter := 25,
        realpenalty := 10, ipDelta := 5 } :=
  ⟨reconcile_penalty_covered scenarioLedger 20 10 5 (by decide) (by decide), by decide⟩

/-- C2: for every ledger, available balance, pledge delta and total penalty that
exceeds the ledger's vesting funds, the projected vesting is 0 and the projected
available balance is `available + pledgeDelta - (penalty - vestingFunds)`. -/
theorem reconcile_penalty_shortfall (lockedFunds : LockedFunds)
    (availBalance penalty ipDelta : Int)
    (hshort : lockedFunds.VestingFunds < penalty) :
    (reconcile lockedFunds availBalance penalty ipDelta).vestingAfter = 0 ∧
    (reconcile lockedFunds availBalance penalty ipDelta).avaAfter
        = availBalance + ipDelta - (penalty - lockedFunds.VestingFunds) := by
  have hnot : ¬ lockedFunds.VestingFunds ≥ penalty := not_le.mpr hshort
  simp only [reconcile, if_neg hnot]
  exact ⟨trivial, trivial⟩

/-- The scenario of C2: the same ledger with penalty 50 gives vesting 0 and
available 20 + 5 - (50 - 30) = 5. -/
theorem reconcile_penalty_shortfall_witness :
    ((reconcile scenarioLedger 20 50 5).vestingAfter = 0 ∧
      (reconcile scenarioLedger 20 50 5).avaAfter
        = 20 + 5 - (50 - scenarioLedger.VestingFunds)) ∧
    reconcile scenarioLedger 20 50 5 =
      { ipAfter := 995, depositAfter := 50, vestingAfter := 0, avaAfter := 5,
        realpenalty := 50, ipDelta := 5 } :=
  ⟨reconcile_penalty_shortfall scenarioLedger 20 50 5 (by decide), by decide⟩

/-- C3: in both branches the projected pledge requirement is
`initialPledgeRequirement - totalPledgeDelta` and the projected deposit is
`precommitDeposits`; replacing the vesting funds, the available balance and the
penalty by any other values leaves both unchanged. -/
theorem reconcile_pledge_deposit_frame (lockedFunds : LockedFunds)
    (availBalance penalty ipDelta : Int) :
    (reconcile lockedFunds availBalance penalty ipDelta).ipAfter
        = lockedFunds.InitialPledgeRequirement - ipDelta ∧
    (reconcile lockedFunds availBalance penalty ipDelta).depositAfter
        = lockedFunds.PreCommitDeposits ∧
    ∀ (vesting availBalance2 penalty2 : Int),
      (reconcile { lockedFunds with VestingFunds := vesting } availBalance2 penalty2 ipDelta).ipAfter
          = (reconcile lockedFunds availBalance penalty ipDelta).ipAfter ∧
      (reconcile { lockedFunds with VestingFunds := vesting } availBalance2 penalty2 ipDelta).depositAfter
          = (reconcile lockedFunds availBalance penalty ipDelta).depositAfter := by
  have key : ∀ (lf : LockedFunds) (a p : Int),
      (reconcile lf a p ipDelta).ipAfter = lf.InitialPledgeRequirement - ipDelta ∧
      (reconcile lf a p ipDelta).depositAfter = lf.PreCommitDeposits := by
    intro lf a p
    unfold reconcile
    split <;> exact ⟨rfl, rfl⟩
  refine ⟨(key _ _ _).1, (key _ _ _).2, ?_⟩
  intro vesting a2 p2
  rw [(key _ a2 p2).1, (key _ a2 p2).2, (key lockedFunds _ _).1, (key lockedFunds _ _).2]
  exact ⟨rfl, rfl⟩

/-- C4, as stated, fails: with vesting funds 30 covering a penalty of 10, an available
balance of -40 (a miner in fee debt) and a pledge delta of 5 are reported as an
available balance of -35. -/
theorem reconcile_covered_negative_available :
    (10 : Int) ≤ scenarioLedger.VestingFunds ∧
    (reconcile scenarioLedger (-40) 10 5).avaAfter = -35 ∧
    ¬ (0 ≤ (reconcile scenarioLedger (-40) 10 5).vestingAfter ∧
       0 ≤ (reconcile scenarioLedger (-40) 10 5).avaAfter) := by
  decide

/-- C4, amended: when the total penalty is covered by the ledger's vesting funds, the
reported vesting funds are `vestingFunds - penalty`, which is never negative, and the
reported available balance is `availableBalance + totalPledgeDelta`, unclamped: it is
negative exactly when that sum is, and so never when both terms are non-negative. -/
theorem reconcile_covered_signs (lockedFunds : LockedFunds)
    (availBalance penalty ipDelta : Int)
    (hcov : penalty ≤ lockedFunds.VestingFunds) :
    (reconcile lockedFunds availBalance penalty ipDelta).vestingAfter
        = lockedFunds.VestingFunds - penalty ∧
    0 ≤ (reconcile lockedFunds availBalance penalty ipDelta).vestingAfter ∧
    (reconcile lockedFunds availBalance penalty ipDelta).avaAfter
        = availBalance + ipDelta ∧
    ((reconcile lockedFunds availBalance penalty ipDelta).avaAfter < 0
        ↔ availBalance + ipDelta < 0) ∧
    (0 ≤ availBalance → 0 ≤ ipDelta →
      0 ≤ (reconcile lockedFunds availBalance penalty ipDelta).avaAfter) := by
  have hge : lockedFunds.VestingFunds ≥ penalty := hcov
  have hv : (reconcile lockedFunds availBalance penalty ipDelta).vestingAfter
      = lockedFunds.VestingFunds - penalty := by
    simp only [reconcile, if_pos hge]
  have ha : (reconcile lockedFunds availBalance penalty ipDelta).avaAfter
      = availBalance + ipDelta := by
    simp only [reconcile, if_pos hge]
  refine ⟨hv, ?_, ha, ?_, ?_⟩
  · rw [hv]
    omega
  · rw [ha]
  · intro h1 h2
    rw [ha]
    omega

/-- The amended C4 on the scenario ledger: penalty 10 with available 20 and pledge
delta 5 reports vesting 20 and available 25. -/
theorem reconcile_covered_signs_witness :
    (10 : Int) ≤ scenarioLedger.VestingFunds ∧
    ((reconcile scenarioLedger 20 10 5).vestingAfter = scenarioLedger.VestingFunds - 10 ∧
      0 ≤ (reconcile scenarioLedger 20 10 5).vestingAfter ∧
      (reconcile scenarioLedger 20 10 5).avaAfter = 20 + 5 ∧
      ((reconcile scenarioLedger 20 10 5).avaAfter < 0 ↔ (20 : Int) + 5 < 0) ∧
      ((0 : Int) ≤ 20 → (0 : Int) ≤ 5 → 0 ≤ (reconcile scenarioLedger 20 10 5).avaAfter)) :=
  ⟨by decide, reconcile_covered_signs scenarioLedger 20 10 5 (by decide)⟩

/-! ## Accumulator: theorems -/

/-- The loop from any starting pair adds the sum of the fees to the first component
and the sum of the initial pledges to the second. -/
theorem foldl_accumulateStep (lib : Actors7) (sectorSize : Nat) (height : Int)
    (pwrTotal fe : FilterEstimate) (sinfos : List SectorOnChainInfo) (acc : Int × Int) :
    sinfos.foldl (accumulateStep lib sectorSize height pwrTotal fe) acc
      = (acc.1 + (sinfos.map (sectorFee lib sectorSize height pwrTotal fe)).sum,
         acc.2 + (sinfos.map (fun info => info.InitialPledge)).sum) := by
  induction sinfos generalizing acc with
  | nil => simp
  | cons info rest ih =>
    rw [List.foldl_cons, ih]
    simp only [accumulateStep, toMiner7, List.map_cons, List.sum_cons]
    ext <;> simp only [] <;> ring

/-- An example stand-in for the external actor library, used to evaluate the loop on
concrete sectors; it is not the network's formula. -/
def exampleLib : Actors7 where
  QAPowerForSector := fun size s =>
    (size : Int) * (s.Expiration - s.Activation) + s.DealWeight + 10 * s.VerifiedDealWeight
  PledgePenaltyForTermination := fun dayReward age pledge pwr power rew repl replAge =>
    pledge + dayReward * (age / 100) + power / 6400
      + (pwr.PositionEstimate + rew.PositionEstimate) / 70 + repl + replAge

/-- An example sector: number 7, pledge 3. -/
def exampleSector7 : SectorOnChainInfo :=
  { SectorNumber := 7, SealProof := 8, SealedCID := "bagboea7", DealIDs := [],
    Activation := 100, Expiration := 500, DealWeight := 0, VerifiedDealWeight := 0,
    InitialPledge := 3, ExpectedDayReward := 2, ExpectedStoragePledge := 4 }

/-- An example sector: number 9, pledge 2. -/
def exampleSector9 : SectorOnChainInfo :=
  { SectorNumber := 9, SealProof := 8, SealedCID := "bagboea9", DealIDs := [1],
    Activation := 150, Expiration := 600, DealWeight := 5, VerifiedDealWeight := 1,
    InitialPledge := 2, ExpectedDayReward := 1, ExpectedStoragePledge := 6 }

/-- C5: for fixed chain height, sector size, reward estimate and power estimate, and an
arbitrary external fee formula, two permutations of the same sector list give the same
total penalty and the same total pledge delta; the first is the sum of the per-sector
fees and the second the sum of the per-sector initial pledges. -/
theorem accumulate_order_independent (lib : Actors7) (sectorSize : Nat) (height : Int)
    (pwrTotal fe : FilterEstimate) (sinfos sinfos2 : List SectorOnChainInfo)
    (hperm : sinfos.Perm sinfos2) :
    accumulate lib sectorSize height pwrTotal fe sinfos
      = accumulate lib sectorSize height pwrTotal fe sinfos2 ∧
    (accumulate lib sectorSize height pwrTotal fe sinfos).1
      = (sinfos.map (sectorFee lib sectorSize height pwrTotal fe)).sum ∧
    (accumulate lib sectorSize height pwrTotal fe sinfos).2
      = (sinfos.map (fun info => info.InitialPledge)).sum := by
  simp only [accumulate, foldl_accumulateStep, zero_add]
  refine ⟨?_, trivial, trivial⟩
  rw [(hperm.map _).sum_eq, (hperm.map _).sum_eq]

/-- The two orders of the two example sectors give the same totals. -/
theorem accumulate_order_independent_witness :
    [exampleSector7, exampleSector9].Perm [exampleSector9, exampleSector7] ∧
    (accumulate exampleLib 32 1000 ⟨50, 1⟩ ⟨20, 1⟩ [exampleSector7, exampleSector9]
      = accumulate exampleLib 32 1000 ⟨50, 1⟩ ⟨20, 1⟩ [exampleSector9, exampleSector7] ∧
    (accumulate exampleLib 32 1000 ⟨50, 1⟩ ⟨20, 1⟩ [exampleSector7, exampleSector9]).1
      = ([exampleSector7, exampleSector9].map (sectorFee exampleLib 32 1000 ⟨50, 1⟩ ⟨20, 1⟩)).sum ∧
    (accumulate exampleLib 32 1000 ⟨50, 1⟩ ⟨20, 1⟩ [exampleSector7, exampleSector9]).2
      = ([exampleSector7, exampleSector9].map (fun info => info.InitialPledge)).sum) :=
  ⟨List.Perm.swap _ _ _,
   accumulate_order_independent exampleLib 32 1000 ⟨50, 1⟩ ⟨20, 1⟩ _ _ (List.Perm.swap _ _ _)⟩

/-! ## Example host, files and node -/

/-- An example host: five files, no home-directory rewriting, and an address codec
that accepts the texts starting with `f`. -/
def exampleEnv : Env String where
  openFile := fun path =>
    if path = "/miners.txt" then some "f01000\nf02000\n"
    else if path = "/one.txt" then some "f01000\n"
    else if path = "/bare.txt" then some "f01000"
    else if path = "/two.txt" then some "f01000\nf02000"
    else if path = "/sectors.txt" then some "7\n9\n"
    else none
  expand := fun path => .ok path
  newFromString := fun s =>
    if s.data.head? = some 'f' then .ok s else .error "unknown address network"

/-- A smoothed estimate as the node decodes it. -/
def exampleEstimate (field : String) (position velocity : String) : JVal :=
  .obj [(field, .obj [("PositionEstimate", .str position), ("VelocityEstimate", .str velocity)])]

/-- An example node at height 1000 with head key `["head"]`: miner `f01000` has the two
example sectors, a balance of 1500 and the scenario ledger; every other miner has no
sectors. -/
def exampleNode : FullNode String where
  StateMinerInfo := fun _ _ => .ok { SectorSize := 32 }
  StateMinerSectors := fun maddr filter _ =>
    if maddr = "f01000" then
      .ok ([exampleSector7, exampleSector9].filter (fun s => filter.contains s.SectorNumber))
    else .ok []
  StateMinerActiveSectors := fun maddr _ =>
    if maddr = "f01000" then .ok [exampleSector7, exampleSector9] else .ok []
  ChainHead := .ok { Height := 1000, Key := ["head"] }
  StateReadState := fun addr _ =>
    if addr = "f02" then .ok (exampleEstimate "ThisEpochRewardSmoothed" "20" "1")
    else if addr = "f04" then .ok (exampleEstimate "ThisEpochQAPowerSmoothed" "50" "1")
    else .ok .other
  StateGetActor := fun _ _ => .ok { Balance := 1500, Head := "root" }
  MinerLoad := fun _ =>
    .ok { LockedFunds := .ok scenarioLedger, AvailableBalance := fun bal => .ok (bal - 1080) }

/-- An example runtime: the node above, and a standard output that accepts every write. -/
def exampleRuntime : Runtime String where
  getFullNodeAPI := .ok exampleNode
  flushResult := fun _ => .ok ()

/-! ## Reading files: lemmas -/

/-- The content of a file whose lines are all terminated by a newline. -/
def terminatedLines : List String → List Char
  | [] => []
  | l :: ls => l.data ++ '\n' :: terminatedLines ls

/-- Removing newlines from newline-free text changes nothing. -/
theorem filter_newline_free (cs : List Char) (h : '\n' ∉ cs) :
    cs.filter (fun x => x ≠ '\n') = cs := by
  rw [List.filter_eq_self]
  intro a ha
  have : a ≠ '\n' := fun e => h (e ▸ ha)
  simpa using this

/-- The read loop over newline-free text followed by a newline yields that text,
joined to what was pending, as the next line. -/
theorem readLines_line (cur l rest : List Char) (hcur : '\n' ∉ cur) (hl : '\n' ∉ l) :
    readLines cur (l ++ '\n' :: rest) = String.mk (cur ++ l) :: readLines [] rest := by
  induction l generalizing cur with
  | nil =>
    have hf : (cur ++ ['\n']).filter (fun x => x ≠ '\n') = cur := by
      rw [List.filter_append, filter_newline_free cur hcur]
      simp
    simp only [List.nil_append, readLines, if_true, hf, List.append_nil]
  | cons c l ih =>
    have hc : c ≠ '\n' := fun e => hl (e ▸ List.mem_cons_self _ _)
    have hl2 : '\n' ∉ l := fun h => hl (List.mem_cons_of_mem _ h)
    have hcur2 : '\n' ∉ cur ++ [c] := by
      intro h
      rcases List.mem_append.mp h with h | h
      · exact hcur h
      · exact hc (List.mem_singleton.mp h).symm
    rw [List.cons_append, readLines, if_neg hc, ih (cur ++ [c]) hcur2 hl2]
    simp

/-- The read loop over newline-free text that is not followed by a newline yields
nothing: the unterminated tail is dropped. -/
theorem readLines_unterminated (cur l : List Char) (hl : '\n' ∉ l) :
    readLines cur l = [] := by
  induction l generalizing cur with
  | nil => rfl
  | cons c l ih =>
    have hc : c ≠ '\n' := fun e => hl (e ▸ List.mem_cons_self _ _)
    have hl2 : '\n' ∉ l := fun h => hl (List.mem_cons_of_mem _ h)
    simp only [readLines, if_neg hc]
    exact ih _ hl2

/-- A file of newline-terminated, newline-free lines is read back as exactly those
lines, in order. -/
theorem readLines_terminatedLines (lines : List String)
    (hfree : ∀ l ∈ lines, '\n' ∉ l.data) :
    readLines [] (terminatedLines lines) = lines := by
  induction lines with
  | nil => rfl
  | cons l ls ih =>
    have h1 : '\n' ∉ l.data := hfree l (List.mem_cons_self _ _)
    have h2 : ∀ x ∈ ls, '\n' ∉ x.data := fun x hx => hfree x (List.mem_cons_of_mem _ hx)
    simp only [terminatedLines]
    rw [readLines_line [] l.data _ (by simp) h1, ih h2]
    simp

/-- When every line parses, the parse loop returns the parsed addresses in order. -/
theorem parseAddrs_all_ok {Addr : Type} (env : Env Addr) (lines : List String)
    (addrs : List Addr)
    (hparse : lines.map env.newFromString = addrs.map Except.ok) :
    parseAddrs env lines = .ok addrs := by
  induction lines generalizing addrs with
  | nil =>
    cases addrs with
    | nil => rfl
    | cons a as => simp at hparse
  | cons l ls ih =>
    cases addrs with
    | nil => simp at hparse
    | cons a as =>
      simp only [List.map_cons, List.cons.injEq] at hparse
      simp only [parseAddrs, hparse.1, ih as hparse.2]

/-! ## Address resolution: theorems -/

/-- A failure of address resolution is the result of the action, which then leaves the
world as it found it: no node call, nothing written. -/
theorem action_of_resolveActors_error {Addr : Type} (env : Env Addr) (rt : Runtime Addr)
    (lib : Actors7) (flags : Flags) (w : World Addr) (e : Err)
    (h : resolveActors env flags = .error e) :
    action env rt lib flags w = (w, .error e) := by
  simp only [action, h]

/-- A single parsable `--actor`, with no miners file, resolves to the one-element list. -/
theorem resolveActors_actor {Addr : Type} (env : Env Addr) (flags : Flags) (a : Addr)
    (hpath : flags.minersPath = "") (hactor : flags.actor ≠ "")
    (hparse : env.newFromString flags.actor = .ok a) :
    resolveActors env flags = .ok [a] := by
  have hboth : ¬ (flags.minersPath = "" ∧ flags.actor = "") := fun h => hactor h.2
  have hnot : ¬ flags.minersPath ≠ "" := fun h => h hpath
  rw [resolveActors, if_neg hboth, collectActors, if_neg hnot, if_pos hactor, if_pos hactor]
  simp only [hparse, List.length_singleton, one_ne_zero, if_false]

/-- A miners file of newline-terminated parsable lines resolves to their addresses in
file order. -/
theorem resolveActors_file {Addr : Type} (env : Env Addr) (flags : Flags)
    (path : String) (lines : List String) (addrs : List Addr)
    (hpath : flags.minersPath ≠ "") (hexp : env.expand flags.minersPath = .ok path)
    (hopen : env.openFile path = some (String.mk (terminatedLines lines)))
    (hfree : ∀ l ∈ lines, '\n' ∉ l.data)
    (hparse : lines.map env.newFromString = addrs.map Except.ok) (hne : lines ≠ []) :
    resolveActors env flags = .ok addrs := by
  have hboth : ¬ (flags.minersPath = "" ∧ flags.actor = "") := fun h => hpath h.1
  have hread : readline env path = lines := by
    simp only [readline, hopen]
    exact readLines_terminatedLines lines hfree
  have hlen : addrs.length ≠ 0 := by
    have := congrArg List.length hparse
    simp only [List.length_map] at this
    rw [← this]
    exact fun h => hne (List.length_eq_zero.mp h)
  rw [resolveActors, if_neg hboth, collectActors, if_pos hpath]
  simp only [hexp, hread, parseAddrs_all_ok env lines addrs hparse, if_neg hlen]

/-- What holds of address resolution in the action. With neither flag the action fails
with the configuration error and touches nothing; when the collected list is empty it
fails with a configuration error and touches nothing; every failure of the resolution
ends the action before the node is reached; a single parsable `--actor` gives the
one-element list; a `--miners-path` file whose lines are all newline-terminated and
parsable gives their addresses in file order; and a successful resolution is never
empty. -/
theorem resolveActors_terminated_contract {Addr : Type} (env : Env Addr) (rt : Runtime Addr)
    (lib : Actors7) (flags : Flags) (w : World Addr) :
    (flags.minersPath = "" ∧ flags.actor = "" →
      action env rt lib flags w = (w, .error .neitherSupplied)) ∧
    (collectActors env flags = .ok [] →
      ∃ e, e.isConfig = true ∧ action env rt lib flags w = (w, .error e)) ∧
    (∀ e, resolveActors env flags = .error e →
      action env rt lib flags w = (w, .error e)) ∧
    (∀ a, flags.minersPath = "" → flags.actor ≠ "" →
      env.newFromString flags.actor = .ok a → resolveActors env flags = .ok [a]) ∧
    (∀ path lines addrs, flags.minersPath ≠ "" → env.expand flags.minersPath = .ok path →
      env.openFile path = some (String.mk (terminatedLines lines)) →
      (∀ l ∈ lines, '\n' ∉ l.data) →
      lines.map env.newFromString = addrs.map Except.ok → lines ≠ [] →
      resolveActors env flags = .ok addrs) ∧
    (∀ actors, resolveActors env flags = .ok actors → actors ≠ []) := by
  refine ⟨?_, ?_, ?_, ?_, ?_, ?_⟩
  · intro hboth
    apply action_of_resolveActors_error
    simp only [resolveActors, if_pos hboth]
  · intro hnil
    by_cases hboth : flags.minersPath = "" ∧ flags.actor = ""
    · refine ⟨.neitherSupplied, rfl, ?_⟩
      apply action_of_resolveActors_error
      simp only [resolveActors, if_pos hboth]
    · refine ⟨.actorsMustProvide, rfl, ?_⟩
      apply action_of_resolveActors_error
      simp only [resolveActors, if_neg hboth, hnil, List.length_nil, if_true]
  · intro e he
    exact action_of_resolveActors_error env rt lib flags w e he
  · intro a hpath hactor hparse
    exact resolveActors_actor env flags a hpath hactor hparse
  · intro path lines addrs hpath hexp hopen hfree hparse hne
    exact resolveActors_file env flags path lines addrs hpath hexp hopen hfree hparse hne
  · intro actors hok hnil
    subst hnil
    unfold resolveActors at hok
    split at hok
    · cases hok
    · split at hok
      · cases hok
      · split at hok
        · cases hok
        · rename_i hlen
          injection hok with hok
          subst hok
          exact hlen rfl

/-- The statement above on the example host: no flag, a file whose only line is
unterminated, a single `--actor`, and a two-line miners file. -/
theorem resolveActors_terminated_contract_witness :
    action exampleEnv exampleRuntime exampleLib ⟨"", "", "", ""⟩ (World.empty String)
      = (World.empty String, .error .neitherSupplied) ∧
    (∃ e, e.isConfig = true ∧
      action exampleEnv exampleRuntime exampleLib ⟨"", "/bare.txt", "", ""⟩ (World.empty String)
        = (World.empty String, .error e)) ∧
    resolveActors exampleEnv ⟨"f01000", "", "", ""⟩ = .ok ["f01000"] ∧
    resolveActors exampleEnv ⟨"", "/miners.txt", "", ""⟩ = .ok ["f01000", "f02000"] :=
  ⟨(resolveActors_terminated_contract exampleEnv exampleRuntime exampleLib ⟨"", "", "", ""⟩
      (World.empty String)).1 ⟨rfl, rfl⟩,
   (resolveActors_terminated_contract exampleEnv exampleRuntime exampleLib ⟨"", "/bare.txt", "", ""⟩
      (World.empty String)).2.1 (by decide),
   (resolveActors_terminated_contract exampleEnv exampleRuntime exampleLib ⟨"f01000", "", "", ""⟩
      (World.empty String)).2.2.2.1 "f01000" rfl (by decide) (by decide),
   (resolveActors_terminated_contract exampleEnv exampleRuntime exampleLib ⟨"", "/miners.txt", "", ""⟩
      (World.empty String)).2.2.2.2.1 "/miners.txt" ["f01000", "f02000"] ["f01000", "f02000"]
      (by decide) (by decide) (by decide) (by decide) (by decide) (by decide)⟩

/-- A miners file holding one newline-terminated address resolves to the same
one-element list as the `--actor` flag with that address. -/
theorem resolveActors_single_line_file {Addr : Type} (env : Env Addr) (flags : Flags)
    (path a : String) (addr : Addr)
    (hpath : flags.minersPath ≠ "") (hexp : env.expand flags.minersPath = .ok path)
    (hopen : env.openFile path = some (String.mk (a.data ++ ['\n'])))
    (hfree : '\n' ∉ a.data) (hne : a ≠ "") (hparse : env.newFromString a = .ok addr) :
    resolveActors env flags = .ok [addr] ∧
    resolveActors env { flags with minersPath := "", actor := a } = .ok [addr] := by
  constructor
  · refine resolveActors_file env flags path [a] [addr] hpath hexp ?_ ?_ ?_ ?_
    · simpa [terminatedLines] using hopen
    · intro l hl
      rw [List.mem_singleton.mp hl]
      exact hfree
    · simp [hparse]
    · simp
  · exact resolveActors_actor env { flags with minersPath := "", actor := a } addr rfl hne hparse

/-- A miners file whose content is newline-free text, with no terminating newline,
resolves to no address at all, and the resolution fails. -/
theorem resolveActors_unterminated {Addr : Type} (env : Env Addr) (flags : Flags)
    (path a : String)
    (hpath : flags.minersPath ≠ "") (hexp : env.expand flags.minersPath = .ok path)
    (hopen : env.openFile path = some a) (hfree : '\n' ∉ a.data) :
    resolveActors env flags = .error .actorsMustProvide := by
  have hboth : ¬ (flags.minersPath = "" ∧ flags.actor = "") := fun h => hpath h.1
  have hread : readline env path = [] := by
    simp only [readline, hopen]
    exact readLines_unterminated [] a.data hfree
  rw [resolveActors, if_neg hboth, collectActors, if_pos hpath]
  simp only [hexp, hread, parseAddrs, List.length_nil, if_true]

/-- C8, at the failing input: `--actor f01000` resolves to the one-element list, while
`--miners-path` naming a file whose only content is `f01000` resolves to nothing and
fails with "actors must provide". -/
theorem resolveActors_roundtrip_fails :
    resolveActors exampleEnv ⟨"f01000", "", "", ""⟩ = .ok ["f01000"] ∧
    exampleEnv.openFile "/bare.txt" = some "f01000" ∧
    readline exampleEnv "/bare.txt" = [] ∧
    resolveActors exampleEnv ⟨"", "/bare.txt", "", ""⟩ = .error .actorsMustProvide := by
  decide

/-- C6, at the failing input: the miners file `/two.txt` holds the two addresses
`f01000` and `f02000` separated by a newline, the second one unterminated. The
resolution produces `[f01000]` only, and the action goes on to the node for that single
miner: `f02000` is never queried and the run succeeds with one row. -/
theorem resolveActors_drops_last_address :
    exampleEnv.openFile "/two.txt" = some "f01000\nf02000" ∧
    readline exampleEnv "/two.txt" = ["f01000"] ∧
    resolveActors exampleEnv ⟨"", "/two.txt", "", ""⟩ = .ok ["f01000"] ∧
    (action exampleEnv exampleRuntime exampleLib ⟨"", "/two.txt", "", ""⟩
        (World.empty String)).2 = .ok () ∧
    (action exampleEnv exampleRuntime exampleLib ⟨"", "/two.txt", "", ""⟩
        (World.empty String)).1.calls
      = [.getFullNodeAPI, .stateMinerInfo "f01000" EmptyTSK,
         .stateMinerActiveSectors "f01000" EmptyTSK, .chainHead,
         .stateReadState "f02" ["head"], .stateReadState "f04" ["head"],
         .stateGetActor "f01000" ["head"], .minerLoad { Balance := 1500, Head := "root" }] ∧
    (action exampleEnv exampleRuntime exampleLib ⟨"", "/two.txt", "", ""⟩
        (World.empty String)).1.stdout.length = 2 := by
  decide

/-- Whatever follows the last newline of a miners file is not read: appending
newline-free text to the file leaves the lines read unchanged. -/
theorem readLines_tail_dropped (lines : List String) (tail : List Char)
    (hfree : ∀ l ∈ lines, '\n' ∉ l.data) (htail : '\n' ∉ tail) :
    readLines [] (terminatedLines lines ++ tail) = lines := by
  induction lines with
  | nil => exact readLines_unterminated [] tail htail
  | cons l ls ih =>
    have h1 : '\n' ∉ l.data := hfree l (List.mem_cons_self _ _)
    have h2 : ∀ x ∈ ls, '\n' ∉ x.data := fun x hx => hfree x (List.mem_cons_of_mem _ hx)
    simp only [terminatedLines, List.append_assoc, List.cons_append]
    rw [readLines_line [] l.data _ (by simp) h1, ih h2]
    simp

/-! ## Sector resolution: theorems -/

/-- C7, at the failing input: the file named by `--sectors-path` holds the sector
numbers 7 and 9, but the resolution reads the file named by `--miners-path`: with
`--actor` it finds no file and returns the empty list, with `--miners-path` it tries to
parse the first address as a sector number. -/
theorem resolveSectors_ignores_sectors_path :
    exampleEnv.openFile "/sectors.txt" = some "7\n9\n" ∧
    parseSectorNumbers (readline exampleEnv "/sectors.txt") = .ok [7, 9] ∧
    resolveSectors exampleEnv ⟨"f01000", "", "", "/sectors.txt"⟩ = .ok [] ∧
    resolveSectors exampleEnv ⟨"", "/miners.txt", "", "/sectors.txt"⟩
      = .error (.parseUint "f01000") := by
  decide

/-- With `--sectors-path` set, the resolved sectors do not depend on which file it
names. -/
theorem resolveSectors_any_sectors_path {Addr : Type} (env : Env Addr) (flags : Flags)
    (other : String) (h1 : flags.sectorsPath ≠ "") (h2 : other ≠ "") :
    resolveSectors env { flags with sectorsPath := other } = resolveSectors env flags := by
  simp only [resolveSectors, if_pos h1, if_pos h2]

/-! ## calculateBalance: theorems -/

/-- The sector-info lookup that `calculateBalance` makes: the requested subset when
the sector list is non-empty, all active sectors otherwise, at the empty tipset key. -/
def sectorQuery {Addr : Type} (maddr : Addr) (sectors : List Nat) : Call Addr :=
  if sectors.length > 0 then .stateMinerSectors maddr (sectors.foldl bitfieldSet []) EmptyTSK
  else .stateMinerActiveSectors maddr EmptyTSK

/-- The answer of the node to that lookup. -/
def sectorAnswer {Addr : Type} (nodeAPI : FullNode Addr) (maddr : Addr) (sectors : List Nat) :
    Except Err (List SectorOnChainInfo) :=
  if sectors.length > 0 then
    nodeAPI.StateMinerSectors maddr (sectors.foldl bitfieldSet []) EmptyTSK
  else nodeAPI.StateMinerActiveSectors maddr EmptyTSK

/-- The lookup stage records exactly the lookup call and returns the node's answer. -/
theorem fetchSectors_eq {Addr : Type} (nodeAPI : FullNode Addr) (maddr : Addr)
    (sectors : List Nat) (w : World Addr) :
    fetchSectors nodeAPI maddr sectors w
      = (w.call (sectorQuery maddr sectors), sectorAnswer nodeAPI maddr sectors) := by
  unfold fetchSectors sectorQuery sectorAnswer
  by_cases h : sectors.length > 0
  · simp only [if_pos h]
    cases nodeAPI.StateMinerSectors maddr (List.foldl bitfieldSet [] sectors) EmptyTSK <;> simp
  · simp only [if_neg h]
    cases nodeAPI.StateMinerActiveSectors maddr EmptyTSK <;> simp

/-- C9: for every actor and requested sector set, when the sector-info lookup
(requested subset when the sector list is non-empty, all active sectors otherwise) is
made and returns an empty sequence, `calculateBalance` fails with the no-sectors error
and writes nothing to the table writer nor to standard output. -/
theorem calculateBalance_no_sectors {Addr : Type} (env : Env Addr) (rt : Runtime Addr)
    (lib : Actors7) (nodeAPI : FullNode Addr) (maddr : Addr) (sectors : List Nat)
    (w : World Addr) (mi : MinerInfo)
    (hmi : nodeAPI.StateMinerInfo maddr EmptyTSK = .ok mi)
    (hsubset : 0 < sectors.length →
      nodeAPI.StateMinerSectors maddr (sectors.foldl bitfieldSet []) EmptyTSK = .ok [])
    (hactive : sectors.length = 0 →
      nodeAPI.StateMinerActiveSectors maddr EmptyTSK = .ok []) :
    (calculateBalance env rt lib nodeAPI maddr sectors w).2 = .error .noSectors ∧
    (calculateBalance env rt lib nodeAPI maddr sectors w).1.tw = w.tw ∧
    (calculateBalance env rt lib nodeAPI maddr sectors w).1.stdout = w.stdout := by
  have hans : sectorAnswer nodeAPI maddr sectors = .ok [] := by
    unfold sectorAnswer
    split
    · rename_i h
      exact hsubset h
    · rename_i h
      exact hactive (by omega)
  simp only [calculateBalance, hmi, fetchSectors_eq, hans, List.length_nil, if_true, World.call]
  exact ⟨trivial, trivial, trivial⟩

/-- The example miner `f03000` has no active sectors: the run fails with the no-sectors
error and the table writer still holds only what it held. -/
theorem calculateBalance_no_sectors_witness :
    (calculateBalance exampleEnv exampleRuntime exampleLib exampleNode "f03000" []
        (World.empty String)).2 = .error .noSectors ∧
    (calculateBalance exampleEnv exampleRuntime exampleLib exampleNode "f03000" []
        (World.empty String)).1.tw = (World.empty String).tw ∧
    (calculateBalance exampleEnv exampleRuntime exampleLib exampleNode "f03000" []
        (World.empty String)).1.stdout = (World.empty String).stdout :=
  calculateBalance_no_sectors exampleEnv exampleRuntime exampleLib exampleNode "f03000" []
    (World.empty String) { SectorSize := 32 } rfl (fun h => absurd h (by decide)) (fun _ => rfl)

/-- A successful last stage made two calls: the actor record at the head's key, then
the ledger load. -/
theorem finishBalance_calls {Addr : Type} (rt : Runtime Addr) (nodeAPI : FullNode Addr)
    (maddr : Addr) (mi : MinerInfo) (sinfos : List SectorOnChainInfo) (head : TipSet)
    (penalty ipDelta : Int) (w : World Addr)
    (hok : (finishBalance rt nodeAPI maddr mi sinfos head penalty ipDelta w).2 = .ok ()) :
    ∃ mact, nodeAPI.StateGetActor maddr head.Key = .ok mact ∧
      (finishBalance rt nodeAPI maddr mi sinfos head penalty ipDelta w).1.calls
        = w.calls ++ [.stateGetActor maddr head.Key, .minerLoad mact] := by
  unfold finishBalance at hok ⊢
  cases h1 : nodeAPI.StateGetActor maddr head.Key with
  | error e => simp [h1] at hok
  | ok mact =>
    refine ⟨mact, rfl, ?_⟩
    simp only [h1] at hok ⊢
    cases h2 : nodeAPI.MinerLoad mact with
    | error e => simp [h2] at hok
    | ok mas =>
      simp only [h2] at hok ⊢
      cases h3 : mas.LockedFunds with
      | error e => simp [h3] at hok
      | ok lockedFunds =>
        simp only [h3] at hok ⊢
        cases h4 : mas.AvailableBalance mact.Balance with
        | error e => simp [h4] at hok
        | ok availBalance =>
          simp only [h4] at hok ⊢
          split at hok
          · simp at hok
          · rename_i hflush
            simp [hflush, World.call, World.write, World.flush]

/-- A successful middle stage made the calls chain head, reward state, power state,
actor record, ledger load, in this order, the last four at the head's key. -/
theorem headAndEstimates_calls {Addr : Type} (env : Env Addr) (rt : Runtime Addr)
    (lib : Actors7) (nodeAPI : FullNode Addr) (maddr : Addr) (mi : MinerInfo)
    (sinfos : List SectorOnChainInfo) (w : World Addr)
    (hok : (headAndEstimates env rt lib nodeAPI maddr mi sinfos w).2 = .ok ()) :
    ∃ head rewardAddr powerAddr mact,
      nodeAPI.ChainHead = .ok head ∧
      env.newFromString "f02" = .ok rewardAddr ∧
      env.newFromString "f04" = .ok powerAddr ∧
      nodeAPI.StateGetActor maddr head.Key = .ok mact ∧
      (headAndEstimates env rt lib nodeAPI maddr mi sinfos w).1.calls
        = w.calls ++ [.chainHead, .stateReadState rewardAddr head.Key,
            .stateReadState powerAddr head.Key, .stateGetActor maddr head.Key,
            .minerLoad mact] := by
  unfold headAndEstimates at hok ⊢
  cases h1 : nodeAPI.ChainHead with
  | error e => simp [h1] at hok
  | ok head =>
    simp only [h1] at hok ⊢
    cases h2 : env.newFromString "f02" with
    | error e => simp [h2] at hok
    | ok rewardAddr =>
      simp only [h2] at hok ⊢
      cases h3 : nodeAPI.StateReadState rewardAddr head.Key with
      | error e => simp [h3] at hok
      | ok rSt =>
        simp only [h3] at hok ⊢
        cases h4 : decodeReward rSt with
        | error e => simp [h4] at hok
        | ok fe =>
          simp only [h4] at hok ⊢
          cases h5 : env.newFromString "f04" with
          | error e => simp [h5] at hok
          | ok powerAddr =>
            simp only [h5] at hok ⊢
            cases h6 : nodeAPI.StateReadState powerAddr head.Key with
            | error e => simp [h6] at hok
            | ok pSt =>
              simp only [h6] at hok ⊢
              cases h7 : decodePower pSt with
              | error e => simp [h7] at hok
              | ok pwrTotal =>
                simp only [h7] at hok ⊢
                obtain ⟨mact, hact, hcalls⟩ := finishBalance_calls rt nodeAPI maddr mi sinfos
                  head _ _ _ hok
                refine ⟨head, rewardAddr, powerAddr, mact, rfl, rfl, rfl, hact, ?_⟩
                rw [hcalls]
                simp [World.call]

/-- C10, as stated, fails: on the example node the run for miner `f01000` succeeds and
its calls are miner info, sector infos, chain head, reward state, power state, actor
record, ledger load. The sector infos are queried second, at the empty tipset key,
before the chain head is read third. -/
theorem calculateBalance_sectors_before_head :
    (calculateBalance exampleEnv exampleRuntime exampleLib exampleNode "f01000" []
        (World.empty String)).2 = .ok () ∧
    (calculateBalance exampleEnv exampleRuntime exampleLib exampleNode "f01000" []
        (World.empty String)).1.calls
      = [.stateMinerInfo "f01000" EmptyTSK, .stateMinerActiveSectors "f01000" EmptyTSK,
         .chainHead, .stateReadState "f02" ["head"], .stateReadState "f04" ["head"],
         .stateGetActor "f01000" ["head"], .minerLoad { Balance := 1500, Head := "root" }] ∧
    (calculateBalance exampleEnv exampleRuntime exampleLib exampleNode "f01000" []
        (World.empty String)).1.calls.indexOf (.stateMinerActiveSectors "f01000" EmptyTSK)
      < (calculateBalance exampleEnv exampleRuntime exampleLib exampleNode "f01000" []
        (World.empty String)).1.calls.indexOf .chainHead := by
  decide

/-- C10, amended: a successful `calculateBalance` run makes exactly the calls miner
info, sector infos, chain head, reward state, power state, actor record, ledger load,
in this order; miner info and sector infos are queried at the empty tipset key before
the chain head is read, and reward state, power state and actor record are read at
the key of that head. -/
theorem calculateBalance_call_order {Addr : Type} (env : Env Addr) (rt : Runtime Addr)
    (lib : Actors7) (nodeAPI : FullNode Addr) (maddr : Addr) (sectors : List Nat)
    (w : World Addr)
    (hok : (calculateBalance env rt lib nodeAPI maddr sectors w).2 = .ok ()) :
    ∃ head rewardAddr powerAddr mact,
      nodeAPI.ChainHead = .ok head ∧
      env.newFromString "f02" = .ok rewardAddr ∧
      env.newFromString "f04" = .ok powerAddr ∧
      nodeAPI.StateGetActor maddr head.Key = .ok mact ∧
      (calculateBalance env rt lib nodeAPI maddr sectors w).1.calls
        = w.calls ++ [.stateMinerInfo maddr EmptyTSK, sectorQuery maddr sectors,
            .chainHead, .stateReadState rewardAddr head.Key,
            .stateReadState powerAddr head.Key, .stateGetActor maddr head.Key,
            .minerLoad mact] := by
  unfold calculateBalance at hok ⊢
  cases h1 : nodeAPI.StateMinerInfo maddr EmptyTSK with
  | error e => simp [h1] at hok
  | ok mi =>
    simp only [h1, fetchSectors_eq] at hok ⊢
    cases h2 : sectorAnswer nodeAPI maddr sectors with
    | error e => simp [h2] at hok
    | ok sinfos =>
      simp only [h2] at hok ⊢
      by_cases hlen : sinfos.length = 0
      · simp [hlen] at hok
      · simp only [if_neg hlen] at hok ⊢
        obtain ⟨head, rewardAddr, powerAddr, mact, hh, hr, hp, ha, hcalls⟩ :=
          headAndEstimates_calls env rt lib nodeAPI maddr mi sinfos _ hok
        refine ⟨head, rewardAddr, powerAddr, mact, hh, hr, hp, ha, ?_⟩
        rw [hcalls]
        simp [World.call]

/-- The successful example run for miner `f01000` restricted to sector 9. -/
theorem calculateBalance_call_order_witness :
    ∃ head rewardAddr powerAddr mact,
      exampleNode.ChainHead = .ok head ∧
      exampleEnv.newFromString "f02" = .ok rewardAddr ∧
      exampleEnv.newFromString "f04" = .ok powerAddr ∧
      exampleNode.StateGetActor "f01000" head.Key = .ok mact ∧
      (calculateBalance exampleEnv exampleRuntime exampleLib exampleNode "f01000" [9]
          (World.empty String)).1.calls
        = (World.empty String).calls ++ [.stateMinerInfo "f01000" EmptyTSK,
            sectorQuery "f01000" [9],
            .chainHead, .stateReadState rewardAddr head.Key,
            .stateReadState powerAddr head.Key, .stateGetActor "f01000" head.Key,
            .minerLoad mact] :=
  calculateBalance_call_order exampleEnv exampleRuntime exampleLib exampleNode "f01000" [9]
    (World.empty String) (by decide)

end LotusTerminate
